import Mathlib

/-!
Verification development for the datadog-log-tail repository.

Shallow embedding of the core components of the Go sources:
  * internal/datadog/logs.go   — tail loop (TailLogs), fetch-response parsing
    (fetchLogsV2), query builder (buildQueryV2), batch engine
    (GetLogsFromTimestamp / fetchAllLogsV2)
  * pkg/utils/retry.go         — CalculateBackoff
  * internal/output/formatter.go — TextFormatter.Format

Conventions:
  * Go time.Time instants and time.Duration values are modelled as Nat
    nanosecond counts; the Go zero time corresponds to 0 (time.Time.IsZero).
  * Go float64 arithmetic of the form time.Duration(float64(d) * c) for a
    constant c (0.85, 1.05, 0.9, 1.1, 1.5) is modelled as exact rational
    scaling followed by truncation, i.e. Nat floor division (d * p / q);
    the claims settled here only use inequalities that are insensitive to
    the sub-nanosecond rounding of the float multiply.
  * rand draws are explicit parameters.
-/

/-! ## Data model: normalized log entries (logs.go, LogEntry) -/

/-- Normalized log entry (logs.go lines 21-29).  The open attributes map
is carried opaquely as an association list; the Timestamp field stores
ts.Unix(), i.e. whole seconds. -/
structure LogEntry where
  id : String
  timestamp : Nat
  message : String
  service : String
  status : String
  tags : List String
  attributes : List (String × String)
deriving Repr, DecidableEq

/-- Raw v2 API log attributes (logs.go lines 40-55).  timestampNs stands
for the RFC3339Nano timestamp string after time.Parse, in nanoseconds
since the epoch; a missing or unparseable timestamp yields the Go zero
time, i.e. 0 (logs.go line 260 discards the parse error). -/
structure V2LogAttributes where
  timestampNs : Nat
  message : String
  service : String
  status : String
  tags : List String
  attributes : List (String × String)
  host : String
  source : String
  logLevel : String
  content : String
  text : String
  log : String
deriving Repr, DecidableEq

/-- Raw v2 API log record (logs.go lines 34-38). -/
structure V2Log where
  id : String
  attrs : V2LogAttributes
deriving Repr, DecidableEq

/-- Field-fallback normalization of one raw record into a LogEntry
(logs.go lines 259-297): message falls through message → content → text →
log → literal fallback; service falls back to host; status falls back to
the level field; Timestamp is ts.Unix() (whole seconds). -/
def normalizeV2Log (d : V2Log) : LogEntry :=
  let m0 := d.attrs.message
  let m1 := if m0 = "" then d.attrs.content else m0
  let m2 := if m1 = "" then d.attrs.text else m1
  let m3 := if m2 = "" then d.attrs.log else m2
  let message := if m3 = "" then "No message content" else m3
  let service := if d.attrs.service = "" then d.attrs.host else d.attrs.service
  let status := if d.attrs.status = "" then d.attrs.logLevel else d.attrs.status
  { id := d.id
    timestamp := d.attrs.timestampNs / 1000000000
    message := message
    service := service
    status := status
    tags := d.attrs.tags
    attributes := d.attrs.attributes }

/-- The parsing loop of fetchLogsV2 (logs.go lines 257-303): one pass that
collects the normalized entries in response order and tracks the running
latest timestamp via the strict comparison ts.After(latest), starting from
the zero time. -/
def fetchLogsV2Parse (data : List V2Log) : List LogEntry × Nat :=
  (data.map normalizeV2Log,
   data.foldl (fun latest d =>
     if latest < d.attrs.timestampNs then d.attrs.timestampNs else latest) 0)

/-- Spec-side helper: first non-empty string in a candidate list, with a
default.  Used to state the field-fallback rules of spec §3. -/
def firstNonemptyOr (dflt : String) : List String → String
  | [] => dflt
  | x :: rest => if x = "" then firstNonemptyOr dflt rest else x

/-! ## Poll loop state (TailLogs, logs.go lines 90-207) -/

/-- Mutable state of the TailLogs loop (logs.go lines 90-99), durations in
nanoseconds, instants in nanoseconds since the epoch (0 = Go zero time). -/
structure PollState where
  lastTimestamp : Nat
  retryCount : Nat
  currentInterval : Nat
  rateLimitBackoff : Nat
  consecutiveSuccesses : Nat
  searchWindow : Nat
deriving Repr, DecidableEq

/-- baseInterval := 3 * time.Second (logs.go line 93). -/
def baseInterval : Nat := 3000000000

/-- maxInterval := 30 * time.Second (logs.go line 95). -/
def maxInterval : Nat := 30000000000

/-- minInterval := 2 * time.Second (logs.go line 96). -/
def minInterval : Nat := 2000000000

/-- rateLimitBackoff initial value, 5 * time.Second (logs.go line 97). -/
def initialRateLimitBackoff : Nat := 5000000000

/-- Initial loop state (logs.go lines 90-99): zero lastTimestamp, zero
counters, 3s interval, 5s backoff, 30s search window. -/
def initPollState : PollState :=
  { lastTimestamp := 0
    retryCount := 0
    currentInterval := baseInterval
    rateLimitBackoff := initialRateLimitBackoff
    consecutiveSuccesses := 0
    searchWindow := 30000000000 }

/-- Outcome of one fetchLogsV2 call as seen by the loop: success with the
parsed entries and latest timestamp, an error whose text contains "429"
(rate limited), or any other error. -/
inductive FetchOutcome where
  | ok (logs : List LogEntry) (latest : Nat)
  | rateLimited
  | fail
deriving Repr, DecidableEq

/-- The from bound of the next fetch window (logs.go lines 106-113): the
dynamic lookback window now - searchWindow when no timestamp has been
seen, otherwise lastTimestamp plus one nanosecond. -/
def computeFrom (s : PollState) (now : Nat) : Nat :=
  if s.lastTimestamp = 0 then now - s.searchWindow else s.lastTimestamp + 1

/-- lastTimestamp update at the end of a successful iteration (logs.go
lines 192-205): adopt a non-zero fetched latest when it is strictly newer
(or nothing was seen yet); otherwise, when the fetch returned zero
entries, jump to now - 30s (first time) or now - 10s. -/
def updateLastTimestamp (last latest numLogs now : Nat) : Nat :=
  if latest ≠ 0 then
    if last = 0 ∨ last < latest then latest else last
  else if numLogs = 0 then
    if last = 0 then now - 30000000000 else now - 10000000000
  else last

/-- One iteration of the TailLogs loop body (logs.go lines 115-206),
restricted to its effect on the loop state; printing and sleeping carry
no state.  The rate-limited branch is lines 118-134 (the jitter drawn
there only lengthens the sleep), the generic error branch lines 136-141,
the success branch lines 144-205. -/
def tailStep (s : PollState) (o : FetchOutcome) (now : Nat) : PollState :=
  match o with
  | FetchOutcome.rateLimited =>
      let rlb := min 60000000000 (s.rateLimitBackoff * 3 / 2)
      let cur0 := max (2 * baseInterval) s.currentInterval
      let cur := if cur0 > maxInterval then maxInterval else cur0
      { s with rateLimitBackoff := rlb, currentInterval := cur,
               consecutiveSuccesses := 0 }
  | FetchOutcome.fail =>
      { s with retryCount := s.retryCount + 1 }
  | FetchOutcome.ok logs latest =>
      let cs := s.consecutiveSuccesses + 1
      let rlb := if cs ≥ 3 then initialRateLimitBackoff else s.rateLimitBackoff
      let cur :=
        if logs.length > 0 then
          if cs ≥ 5 then
            let c := s.currentInterval * 85 / 100
            if c < minInterval then minInterval else c
          else s.currentInterval
        else
          let c := s.currentInterval * 105 / 100
          if c > maxInterval then maxInterval else c
      let sw :=
        if logs.length > 0 then
          if logs.length ≥ 5 ∧ s.searchWindow > 15000000000 then
            s.searchWindow * 9 / 10
          else s.searchWindow
        else
          if s.searchWindow < 60000000000 then s.searchWindow * 11 / 10
          else s.searchWindow
      { s with retryCount := 0
               consecutiveSuccesses := cs
               rateLimitBackoff := rlb
               currentInterval := cur
               searchWindow := sw
               lastTimestamp := updateLastTimestamp s.lastTimestamp latest logs.length now }

/-! ## RFC3339 wire serialization (fetchLogsV2, logs.go lines 220-231) -/

/-- The instant actually transmitted for a window bound: logs.go line 222
serializes from.UTC().Format(time.RFC3339), and Go's RFC3339 layout has
whole-second resolution, truncating (not rounding) the nanosecond part. -/
def rfc3339TruncNs (t : Nat) : Nat := t - t % 1000000000

/-! ## Exponential backoff (pkg/utils/retry.go, CalculateBackoff) -/

/-- The initial exponential term of CalculateBackoff (retry.go lines
12-15): math.Pow(2, retryCount) seconds, capped at 30. -/
def backoffBase (retryCount : Nat) : ℚ :=
  if (2 : ℚ) ^ retryCount > 30 then 30 else (2 : ℚ) ^ retryCount

/-- The clamp to a minimum of 1 second (retry.go lines 22-24). -/
def clampLow (x : ℚ) : ℚ := if x < 1 then 1 else x

/-- The clamp to a maximum of 30 seconds (retry.go lines 25-27, also the
initial cap at line 13-15 applied by backoffBase). -/
def clampHigh (x : ℚ) : ℚ := if x > 30 then 30 else x

/-- CalculateBackoff (retry.go lines 10-30), in nanoseconds.  r is the
rand.Float64() draw, in [0, 1).  The Go float64 pipeline computes, in
seconds: 2^retryCount capped at 30; plus jitter b * 0.2 * (r - 0.5);
clamped to [1, 30]; and finally time.Duration(backoffSeconds) *
time.Second, which truncates the float to a whole number of seconds
before scaling to nanoseconds (the result is ≥ 1, so truncation toward
zero is the floor).  Modelled exactly over the rationals (0.2 = 1/5;
every intermediate here is far inside float64's exact range for the
claims proved below). -/
def CalculateBackoff (retryCount : Nat) (r : ℚ) : ℤ :=
  let b := backoffBase retryCount
  ⌊clampHigh (clampLow (b + b * (1 / 5) * (r - 1 / 2)))⌋ * 1000000000

/-! ## Query builder (logs.go, buildQueryV2, lines 575-606)

Strings are handled as explicit character lists so the whitespace
properties can be settled by induction. -/

/-- Character class trimmed by strings.TrimSpace for the ASCII inputs this
tool deals with (the full Go predicate is unicode.IsSpace). -/
def isSpaceChar (c : Char) : Bool :=
  c == ' ' || c == '\t' || c == '\n' || c == '\r'

/-- Leading-whitespace trim. -/
def trimLeftChars : List Char → List Char
  | [] => []
  | c :: rest => if isSpaceChar c then trimLeftChars rest else c :: rest

/-- Trailing-whitespace trim. -/
def trimRightChars : List Char → List Char
  | [] => []
  | c :: rest =>
      let r := trimRightChars rest
      if r = [] ∧ isSpaceChar c then [] else c :: r

/-- strings.TrimSpace. -/
def trimSpaceChars (l : List Char) : List Char := trimRightChars (trimLeftChars l)

/-- strings.Split on a comma; Split("", ",") yields one empty segment,
matching Go. -/
def splitOnCommaAux (cur : List Char) : List Char → List (List Char)
  | [] => [cur.reverse]
  | c :: rest =>
      if c = ',' then cur.reverse :: splitOnCommaAux [] rest
      else splitOnCommaAux (c :: cur) rest

/-- strings.Split(tags, ","). -/
def splitOnComma (l : List Char) : List (List Char) := splitOnCommaAux [] l

/-- strings.Join with a separator. -/
def joinWith (sep : List Char) : List (List Char) → List Char
  | [] => []
  | [x] => x
  | x :: y :: rest => x ++ sep ++ joinWith sep (y :: rest)

/-- The tag conditions accumulated by buildQueryV2 (logs.go lines
577-585): if the tag filter is non-empty, split on commas, trim each
segment, keep the non-empty ones. -/
def tagConditions (tags : List Char) : List (List Char) :=
  if tags ≠ [] then
    ((splitOnComma tags).map trimSpaceChars).filter (fun t => t ≠ [])
  else []

/-- One status:<level> clause (logs.go lines 591, 596, 602). -/
def statusClause (level : List Char) : List Char :=
  "status:".toList ++ level

/-- The level conditions of buildQueryV2 (logs.go lines 587-603): one
clause for a single level, a parenthesized OR-group for several, and the
backward-compatibility fallback on the raw logLevel string when the
parsed list is empty. -/
def levelConditions (levels : List (List Char)) (logLevel : List Char) : List (List Char) :=
  match levels with
  | [] => if logLevel ≠ [] then [statusClause logLevel] else []
  | [l] => [statusClause l]
  | l1 :: l2 :: rest =>
      [['('] ++ joinWith " OR ".toList ((l1 :: l2 :: rest).map statusClause) ++ [')']]

/-- buildQueryV2 (logs.go lines 575-606): all surviving conditions joined
with single spaces. -/
def buildQueryV2 (tags : List Char) (levels : List (List Char)) (logLevel : List Char) : List Char :=
  joinWith [' '] (tagConditions tags ++ levelConditions levels logLevel)

/-! ## Plain-text formatter (internal/output/formatter.go, lines 54-73) -/

/-- The trailing tag group (formatter.go lines 58-61): rendered only when
there is at least one tag. -/
def formatTags (tags : List String) : String :=
  if tags.length > 0 then " [" ++ String.intercalate ", " tags ++ "]" else ""

/-- TextFormatter.Format (formatter.go lines 54-73).  renderTime stands
for time.Unix(ts, 0).Format("2006-01-02 15:04:05"), the local-time
rendering done by the Go standard library; it is a pure function of the
entry's timestamp. -/
def TextFormatter.Format (renderTime : Nat → String) (e : LogEntry) : String :=
  "[" ++ renderTime e.timestamp ++ "] [" ++ e.status.toUpper ++ "] [" ++
    e.service ++ "] " ++ e.message ++ formatTags e.tags

/-- Spec-side helper: the four bracketed lead fields without any tag
group, used to state that zero tags render no trailing brackets at all. -/
def textFormatBase (renderTime : Nat → String) (e : LogEntry) : String :=
  "[" ++ renderTime e.timestamp ++ "] [" ++ e.status.toUpper ++ "] [" ++
    e.service ++ "] " ++ e.message

/-! ## Batch engine (logs.go, GetLogsFromTimestamp / fetchAllLogsV2) -/

/-- One response of the paginated fetcher as seen by fetchAllLogsV2: a
page with its next cursor, an error whose text contains "429" together
with the rand.Intn draw used for that backoff's jitter, or another
fatal error. -/
inductive BatchFetchResult where
  | ok (logs : List LogEntry) (nextCursor : String)
  | rateLimited (draw : Nat)
  | err (msg : String)
deriving Repr, DecidableEq

/-- maxRetries := 5 (logs.go line 427). -/
def batchMaxRetries : Nat := 5

/-- baseDelay := 2 * time.Second (logs.go line 428), in nanoseconds. -/
def batchBaseDelay : Nat := 2000000000

/-- The backoff slept on one rate-limited page (logs.go lines 440-442):
float64(baseDelay) * 2^retryCount (exact for these magnitudes), plus a
jitter of rand.Intn(backoffDelay / 4), i.e. up to 25%.  The draw is
reduced mod the Intn bound, which is positive. -/
def batchBackoffDelay (retryCount draw : Nat) : Nat :=
  let backoffDelay := batchBaseDelay * 2 ^ retryCount
  backoffDelay + draw % (backoffDelay / 4)

/-- The pagination loop of fetchAllLogsV2 (logs.go lines 430-469), driven
by the trace of fetcher responses.  Accumulates pages in order, stops at
an empty next cursor, resets the retry counter on success, counts
rate-limit retries against batchMaxRetries and fails beyond the ceiling,
and records every backoff slept (the fixed 500ms inter-page delay carries
no state and is not recorded).  An exhausted trace while the loop still
wants a page is a modelling artifact reported as an error. -/
def fetchAllLogsV2 : List BatchFetchResult → Nat → List LogEntry → List Nat →
    Except String (List LogEntry × List Nat)
  | [], _, _, _ => Except.error "trace exhausted"
  | r :: rest, retryCount, acc, sleeps =>
      match r with
      | BatchFetchResult.ok logs next =>
          let acc2 := acc ++ logs
          if next = "" then Except.ok (acc2, sleeps)
          else fetchAllLogsV2 rest 0 acc2 sleeps
      | BatchFetchResult.rateLimited draw =>
          if retryCount ≥ batchMaxRetries then
            Except.error "maximum retry count reached due to rate limiting"
          else
            fetchAllLogsV2 rest (retryCount + 1) acc
              (sleeps ++ [batchBackoffDelay retryCount draw])
      | BatchFetchResult.err m => Except.error m

/-- GetLogsFromTimestamp after range parsing (logs.go lines 382-418):
validate that the end of the range is strictly after the start (line 382,
!to.After(from) is an error), fetch the whole range through the paginated
loop, and only then format every accumulated entry.  Instants are Int
nanoseconds since the epoch since RFC3339 inputs may predate it. -/
def GetLogsFromTimestamp (fromNs toNs : Int) (fmt : LogEntry → String)
    (trace : List BatchFetchResult) : Except String (List String) :=
  if toNs ≤ fromNs then
    Except.error "end timestamp must be after start timestamp"
  else
    match fetchAllLogsV2 trace 0 [] [] with
    | Except.error e => Except.error ("failed to fetch logs: " ++ e)
    | Except.ok (logs, _) => Except.ok (logs.map fmt)

/-- A trace of purely successful pages: each page carries its entries and
the next cursor the server returned. -/
def pagesTrace (pages : List (List LogEntry × String)) : List BatchFetchResult :=
  pages.map fun p => BatchFetchResult.ok p.1 p.2

/-! ## Whitespace shape predicates for the query-builder claims -/

/-- The first character is a space. -/
def headIsSpace : List Char → Bool
  | [] => false
  | c :: _ => c == ' '

/-- The final character is a space. -/
def lastIsSpace : List Char → Bool
  | [] => false
  | [c] => c == ' '
  | _ :: c :: rest => lastIsSpace (c :: rest)

/-- No two consecutive space characters anywhere. -/
def noDoubleSpace : List Char → Bool
  | c1 :: c2 :: rest => !(c1 == ' ' && c2 == ' ') && noDoubleSpace (c2 :: rest)
  | _ => true

/-- No space character at all. -/
def spaceFree (l : List Char) : Bool := l.all (fun c => !(c == ' '))

/-- Concrete poll state used to exhibit a lastTimestamp regression: the
cursor sits at t = 100s while the next iteration runs at now = 105s. -/
def pollStateAt100s : PollState :=
  { lastTimestamp := 100000000000
    retryCount := 0
    currentInterval := baseInterval
    rateLimitBackoff := initialRateLimitBackoff
    consecutiveSuccesses := 0
    searchWindow := 30000000000 }

/-! ## Helper lemmas -/

/-- The running-latest fold of the parse loop computes the maximum of the
timestamps (with 0, the zero time, as the base). -/
theorem foldlLatest_eq (data : List V2Log) :
    ∀ acc : Nat,
      data.foldl (fun latest d =>
        if latest < d.attrs.timestampNs then d.attrs.timestampNs else latest) acc =
      max acc ((data.map fun d => d.attrs.timestampNs).foldr max 0) := by
  induction data with
  | nil => intro acc; simp
  | cons d rest ih =>
      intro acc
      simp only [List.foldl_cons, List.map_cons, List.foldr_cons, ih]
      have h1 : (if acc < d.attrs.timestampNs then d.attrs.timestampNs else acc) =
          max acc d.attrs.timestampNs := by
        rcases lt_or_ge acc d.attrs.timestampNs with h | h
        · rw [if_pos h, max_eq_right h.le]
        · rw [if_neg (not_lt.mpr h), max_eq_left h]
      rw [h1, max_assoc]

/-! ## Claim theorems -/

/-- Claim C4: on a rate-limited fetch error, the tail loop leaves
retryCount and lastTimestamp (and the search window) unchanged, grows
rateLimitBackoff to min(60s, backoff * 1.5), forces currentInterval to
max(2 * baseInterval, currentInterval) capped at maxInterval, and resets
consecutiveSuccesses to 0; no retry-count token is consumed, so the same
iteration is retried. -/
theorem tailStep_rateLimited_spec :
    ∀ (s : PollState) (now : Nat),
      (tailStep s FetchOutcome.rateLimited now).retryCount = s.retryCount ∧
      (tailStep s FetchOutcome.rateLimited now).lastTimestamp = s.lastTimestamp ∧
      (tailStep s FetchOutcome.rateLimited now).rateLimitBackoff =
        min 60000000000 (s.rateLimitBackoff * 3 / 2) ∧
      (tailStep s FetchOutcome.rateLimited now).currentInterval =
        min maxInterval (max (2 * baseInterval) s.currentInterval) ∧
      (tailStep s FetchOutcome.rateLimited now).consecutiveSuccesses = 0 ∧
      (tailStep s FetchOutcome.rateLimited now).searchWindow = s.searchWindow := by
  intro s now
  refine ⟨rfl, rfl, rfl, ?_, rfl, rfl⟩
  show (if max (2 * baseInterval) s.currentInterval > maxInterval then maxInterval
        else max (2 * baseInterval) s.currentInterval) =
       min maxInterval (max (2 * baseInterval) s.currentInterval)
  rcases le_or_lt (max (2 * baseInterval) s.currentInterval) maxInterval with h | h
  · rw [if_neg (not_lt.mpr h), min_eq_right h]
  · rw [if_pos h, min_eq_left h.le]

/-- Claim C10: the plain-text formatter renders the four bracketed lead
fields followed by a bracketed tag list only when at least one tag is
present; with zero tags no trailing bracket group is rendered at all, and
formatting is deterministic. -/
theorem TextFormatter_Format_spec :
    ∀ (renderTime : Nat → String) (e : LogEntry),
      (e.tags = [] → TextFormatter.Format renderTime e = textFormatBase renderTime e) ∧
      (e.tags ≠ [] → TextFormatter.Format renderTime e =
          textFormatBase renderTime e ++
            (" [" ++ String.intercalate ", " e.tags ++ "]")) ∧
      (∀ e2 : LogEntry, e2 = e →
          TextFormatter.Format renderTime e2 = TextFormatter.Format renderTime e) := by
  intro rt e
  refine ⟨?_, ?_, fun e2 h => by rw [h]⟩
  · intro h
    show textFormatBase rt e ++ formatTags e.tags = textFormatBase rt e
    rw [h]
    show textFormatBase rt e ++ "" = textFormatBase rt e
    exact String.append_empty _
  · intro h
    show textFormatBase rt e ++ formatTags e.tags =
      textFormatBase rt e ++ (" [" ++ String.intercalate ", " e.tags ++ "]")
    cases htags : e.tags with
    | nil => exact absurd htags h
    | cons a as => simp [formatTags]

/-- Witness for claim C10 at a concrete entry and time rendering. -/
theorem TextFormatter_Format_spec_witness :
    TextFormatter.Format (fun _ => "2022-01-20 12:00:00")
        { id := "a", timestamp := 0, message := "m", service := "svc",
          status := "info", tags := [], attributes := [] } =
      textFormatBase (fun _ => "2022-01-20 12:00:00")
        { id := "a", timestamp := 0, message := "m", service := "svc",
          status := "info", tags := [], attributes := [] } ∧
    TextFormatter.Format (fun _ => "2022-01-20 12:00:00")
        { id := "a", timestamp := 0, message := "m", service := "svc",
          status := "info", tags := ["env:prod"], attributes := [] } =
      textFormatBase (fun _ => "2022-01-20 12:00:00")
        { id := "a", timestamp := 0, message := "m", service := "svc",
          status := "info", tags := ["env:prod"], attributes := [] } ++
        (" [" ++ String.intercalate ", " ["env:prod"] ++ "]") :=
  ⟨(TextFormatter_Format_spec (fun _ => "2022-01-20 12:00:00") _).1 rfl,
   (TextFormatter_Format_spec (fun _ => "2022-01-20 12:00:00") _).2.1 (by simp)⟩

/-- Claim C9: the normalized message is the first non-empty of message,
content, text, log with the literal fallback; service falls back to host;
status falls back to the level field; and the parse loop's latest
timestamp is the maximum parsed timestamp, zero when there are no
entries. -/
theorem fetchLogsV2Parse_spec :
    (∀ d : V2Log,
       (normalizeV2Log d).message =
         firstNonemptyOr "No message content"
           [d.attrs.message, d.attrs.content, d.attrs.text, d.attrs.log] ∧
       (normalizeV2Log d).service =
         firstNonemptyOr "" [d.attrs.service, d.attrs.host] ∧
       (normalizeV2Log d).status =
         firstNonemptyOr "" [d.attrs.status, d.attrs.logLevel]) ∧
    (∀ data : List V2Log,
       (fetchLogsV2Parse data).2 =
         (data.map fun d => d.attrs.timestampNs).foldr max 0) ∧
    (fetchLogsV2Parse []).2 = 0 := by
  refine ⟨?_, ?_, rfl⟩
  · intro d
    refine ⟨?_, ?_, ?_⟩
    · by_cases ha : d.attrs.message = "" <;> by_cases hb : d.attrs.content = "" <;>
        by_cases hc : d.attrs.text = "" <;> by_cases hd : d.attrs.log = "" <;>
        simp [normalizeV2Log, firstNonemptyOr, ha, hb, hc, hd]
    · by_cases ha : d.attrs.service = "" <;> by_cases hb : d.attrs.host = "" <;>
        simp [normalizeV2Log, firstNonemptyOr, ha, hb]
    · by_cases ha : d.attrs.status = "" <;> by_cases hb : d.attrs.logLevel = "" <;>
        simp [normalizeV2Log, firstNonemptyOr, ha, hb]
  · intro data
    show data.foldl _ 0 = _
    rw [foldlLatest_eq]
    exact Nat.zero_max _

/-- Claim C2: the fetch window is from = now - searchWindow when no
timestamp has been seen, else from = lastTimestamp + 1ns with to = now;
and after an iteration whose fetch reported a non-zero latest strictly
newer than the cursor, the next from is exactly that latest plus one
nanosecond — strictly beyond every timestamp the previous fetch covered,
so consecutive windows share no covered instant. -/
theorem tailWindow_spec :
    ∀ (s : PollState) (now : Nat),
      (s.lastTimestamp = 0 → computeFrom s now = now - s.searchWindow) ∧
      (s.lastTimestamp ≠ 0 → computeFrom s now = s.lastTimestamp + 1) ∧
      (∀ (logs : List LogEntry) (latest : Nat),
         latest ≠ 0 → s.lastTimestamp < latest →
         ∀ now2 : Nat,
           computeFrom (tailStep s (FetchOutcome.ok logs latest) now) now2 =
             latest + 1 ∧
           latest < computeFrom (tailStep s (FetchOutcome.ok logs latest) now) now2) := by
  intro s now
  refine ⟨fun h => by simp [computeFrom, h], fun h => by simp [computeFrom, h], ?_⟩
  intro logs latest hlz hlt now2
  have hlast : (tailStep s (FetchOutcome.ok logs latest) now).lastTimestamp = latest := by
    show updateLastTimestamp s.lastTimestamp latest logs.length now = latest
    simp [updateLastTimestamp, hlz, hlt]
  have h1 : computeFrom (tailStep s (FetchOutcome.ok logs latest) now) now2 =
      latest + 1 := by
    simp [computeFrom, hlast, hlz]
  exact ⟨h1, by rw [h1]; exact Nat.lt_succ_self latest⟩

/-- Witness for claim C2: a fresh state fetches the 30s lookback window,
and after adopting latest = 40s the next window starts at 40s + 1ns. -/
theorem tailWindow_spec_witness :
    computeFrom initPollState 50000000000 = 50000000000 - 30000000000 ∧
    computeFrom (tailStep initPollState (FetchOutcome.ok [] 40000000000) 50000000000)
        53000000000 = 40000000001 :=
  ⟨(tailWindow_spec initPollState 50000000000).1 rfl,
   ((tailWindow_spec initPollState 50000000000).2.2 [] 40000000000
      (by decide) (by decide) 53000000000).1⟩

/-- Claim C1, amended: once lastTimestamp is non-zero, an iteration either
leaves it unchanged, adopts a strictly newer fetched latest, or — on a
zero-entry fetch — jumps to now - 10s (now - 30s when it was still zero).
The jump tracks the wall clock rather than the old cursor, so the cursor
never stalls, but it is non-decreasing only when the iteration runs at
now ≥ lastTimestamp + 10s; when the cursor is within 10s of now the
zero-entry heuristic moves it strictly backwards. -/
theorem lastTimestamp_monotone_amended :
    ∀ (s : PollState) (o : FetchOutcome) (now : Nat),
      (s.lastTimestamp ≠ 0 → s.lastTimestamp + 10000000000 ≤ now →
         s.lastTimestamp ≤ (tailStep s o now).lastTimestamp) ∧
      (∀ (logs : List LogEntry) (latest : Nat), latest ≠ 0 →
         s.lastTimestamp < latest →
         (tailStep s (FetchOutcome.ok logs latest) now).lastTimestamp = latest) ∧
      (∀ (logs : List LogEntry) (latest : Nat), latest ≠ 0 →
         s.lastTimestamp ≠ 0 → ¬ s.lastTimestamp < latest →
         (tailStep s (FetchOutcome.ok logs latest) now).lastTimestamp =
           s.lastTimestamp) ∧
      ((tailStep s (FetchOutcome.ok [] 0) now).lastTimestamp =
         if s.lastTimestamp = 0 then now - 30000000000 else now - 10000000000) := by
  intro s o now
  refine ⟨?_, ?_, ?_, ?_⟩
  · intro h0 hnow
    cases o with
    | rateLimited => exact Nat.le_refl _
    | fail => exact Nat.le_refl _
    | ok logs latest =>
        show s.lastTimestamp ≤ updateLastTimestamp s.lastTimestamp latest logs.length now
        unfold updateLastTimestamp
        split_ifs <;> omega
  · intro logs latest hlz hlt
    show updateLastTimestamp s.lastTimestamp latest logs.length now = latest
    simp [updateLastTimestamp, hlz, hlt]
  · intro logs latest hlz h0 hge
    show updateLastTimestamp s.lastTimestamp latest logs.length now = s.lastTimestamp
    simp [updateLastTimestamp, hlz, h0, hge]
  · show updateLastTimestamp s.lastTimestamp 0 ([] : List LogEntry).length now = _
    simp [updateLastTimestamp]

/-- Counterexample to claim C1 as stated: with the cursor at 100s and a
zero-entry fetch at now = 105s, the heuristic sets lastTimestamp to
95s — a strict decrease, so lastTimestamp is not monotonically
non-decreasing once set. -/
theorem lastTimestamp_monotone_cex :
    (tailStep pollStateAt100s (FetchOutcome.ok [] 0) 105000000000).lastTimestamp <
      pollStateAt100s.lastTimestamp := by decide

/-- Witness for claim C1 (amended) at a concrete state: at now = 115s the
same zero-entry heuristic does not decrease the 100s cursor. -/
theorem lastTimestamp_monotone_amended_witness :
    pollStateAt100s.lastTimestamp ≤
      (tailStep pollStateAt100s (FetchOutcome.ok [] 0) 115000000000).lastTimestamp :=
  (lastTimestamp_monotone_amended pollStateAt100s (FetchOutcome.ok [] 0)
    115000000000).1 (by decide) (by decide)

/-- Claim C3: the wire requests serialize window bounds with whole-second
RFC3339 resolution, so any from with a non-zero sub-second part is
transmitted strictly earlier than the in-memory from (by less than one
second); in particular for from = lastTimestamp + 1ns the one-nanosecond
dedup increment is dropped and the transmitted bound falls back to (or
before) lastTimestamp itself, letting consecutive requested windows
overlap by up to one second (999999998ns is attained). -/
theorem rfc3339Trunc_spec :
    (∀ t : Nat, t % 1000000000 ≠ 0 → rfc3339TruncNs t < t) ∧
    (∀ t : Nat, t - rfc3339TruncNs t < 1000000000) ∧
    (∀ (s : PollState) (now : Nat),
       s.lastTimestamp ≠ 0 → (s.lastTimestamp + 1) % 1000000000 ≠ 0 →
       rfc3339TruncNs (computeFrom s now) ≤ s.lastTimestamp ∧
       rfc3339TruncNs (computeFrom s now) < computeFrom s now) ∧
    (∃ last : Nat, last ≠ 0 ∧ last - rfc3339TruncNs (last + 1) = 999999998) := by
  refine ⟨?_, ?_, ?_, ⟨1999999998, by decide, by decide⟩⟩
  · intro t h
    unfold rfc3339TruncNs
    omega
  · intro t
    unfold rfc3339TruncNs
    omega
  · intro s now h1 h2
    have hcf : computeFrom s now = s.lastTimestamp + 1 := by simp [computeFrom, h1]
    rw [hcf]
    unfold rfc3339TruncNs
    omega

/-- Witness for claim C3 at concrete instants: from = 40s + 1ns is
transmitted as 40s, at or before the 40s cursor. -/
theorem rfc3339Trunc_spec_witness :
    rfc3339TruncNs 1500000000 < 1500000000 ∧
    rfc3339TruncNs (computeFrom
        { lastTimestamp := 40000000000, retryCount := 0,
          currentInterval := 3000000000, rateLimitBackoff := 5000000000,
          consecutiveSuccesses := 0, searchWindow := 30000000000 }
        60000000000) ≤ 40000000000 :=
  ⟨rfc3339Trunc_spec.1 1500000000 (by decide),
   (rfc3339Trunc_spec.2.2.1
      { lastTimestamp := 40000000000, retryCount := 0,
        currentInterval := 3000000000, rateLimitBackoff := 5000000000,
        consecutiveSuccesses := 0, searchWindow := 30000000000 }
      60000000000 (by decide) (by decide)).1⟩

/-- Claim C5: every successful fetch resets retryCount, increments
consecutiveSuccesses, resets rateLimitBackoff to 5s once the streak
reaches 3; with entries and a streak of at least 5 the interval shrinks
by 15% floored at minInterval (and stays put below the streak), with at
least 5 entries and searchWindow above 15s the window shrinks by 10%;
with no entries the interval grows by 5% capped at maxInterval and the
window grows by 10% while below 60s; and from any state inside
[minInterval, maxInterval], every outcome keeps currentInterval inside
[minInterval, maxInterval]. -/
theorem tailStep_success_spec :
    ∀ (s : PollState) (logs : List LogEntry) (latest now : Nat),
      minInterval ≤ s.currentInterval → s.currentInterval ≤ maxInterval →
      (tailStep s (FetchOutcome.ok logs latest) now).retryCount = 0 ∧
      (tailStep s (FetchOutcome.ok logs latest) now).consecutiveSuccesses =
        s.consecutiveSuccesses + 1 ∧
      (s.consecutiveSuccesses + 1 ≥ 3 →
        (tailStep s (FetchOutcome.ok logs latest) now).rateLimitBackoff =
          initialRateLimitBackoff) ∧
      (logs.length > 0 → s.consecutiveSuccesses + 1 ≥ 5 →
        (tailStep s (FetchOutcome.ok logs latest) now).currentInterval =
          max minInterval (s.currentInterval * 85 / 100)) ∧
      (logs.length > 0 → s.consecutiveSuccesses + 1 < 5 →
        (tailStep s (FetchOutcome.ok logs latest) now).currentInterval =
          s.currentInterval) ∧
      (logs.length ≥ 5 → s.searchWindow > 15000000000 →
        (tailStep s (FetchOutcome.ok logs latest) now).searchWindow =
          s.searchWindow * 9 / 10) ∧
      (logs.length = 0 →
        (tailStep s (FetchOutcome.ok logs latest) now).currentInterval =
          min maxInterval (s.currentInterval * 105 / 100) ∧
        (s.searchWindow < 60000000000 →
          (tailStep s (FetchOutcome.ok logs latest) now).searchWindow =
            s.searchWindow * 11 / 10)) ∧
      (∀ o : FetchOutcome,
        minInterval ≤ (tailStep s o now).currentInterval ∧
        (tailStep s o now).currentInterval ≤ maxInterval) := by
  intro s logs latest now hmin hmax
  refine ⟨rfl, rfl, ?_, ?_, ?_, ?_, ?_, ?_⟩
  · intro h
    show (if s.consecutiveSuccesses + 1 ≥ 3 then initialRateLimitBackoff
          else s.rateLimitBackoff) = initialRateLimitBackoff
    rw [if_pos h]
  · intro hl h5
    show (if logs.length > 0 then
            if s.consecutiveSuccesses + 1 ≥ 5 then
              (if s.currentInterval * 85 / 100 < minInterval then minInterval
               else s.currentInterval * 85 / 100)
            else s.currentInterval
          else
            if s.currentInterval * 105 / 100 > maxInterval then maxInterval
            else s.currentInterval * 105 / 100) =
         max minInterval (s.currentInterval * 85 / 100)
    rw [if_pos hl, if_pos h5]
    rcases le_or_lt minInterval (s.currentInterval * 85 / 100) with h | h
    · rw [if_neg (not_lt.mpr h), max_eq_right h]
    · rw [if_pos h, max_eq_left h.le]
  · intro hl h5
    show (if logs.length > 0 then
            if s.consecutiveSuccesses + 1 ≥ 5 then
              (if s.currentInterval * 85 / 100 < minInterval then minInterval
               else s.currentInterval * 85 / 100)
            else s.currentInterval
          else
            if s.currentInterval * 105 / 100 > maxInterval then maxInterval
            else s.currentInterval * 105 / 100) = s.currentInterval
    rw [if_pos hl, if_neg (not_le.mpr h5)]
  · intro h5 hsw
    have hl : logs.length > 0 := by omega
    show (if logs.length > 0 then
            if logs.length ≥ 5 ∧ s.searchWindow > 15000000000 then
              s.searchWindow * 9 / 10
            else s.searchWindow
          else
            if s.searchWindow < 60000000000 then s.searchWindow * 11 / 10
            else s.searchWindow) = s.searchWindow * 9 / 10
    rw [if_pos hl, if_pos ⟨h5, hsw⟩]
  · intro h0
    have hl : ¬ logs.length > 0 := by omega
    constructor
    · show (if logs.length > 0 then
              if s.consecutiveSuccesses + 1 ≥ 5 then
                (if s.currentInterval * 85 / 100 < minInterval then minInterval
                 else s.currentInterval * 85 / 100)
              else s.currentInterval
            else
              if s.currentInterval * 105 / 100 > maxInterval then maxInterval
              else s.currentInterval * 105 / 100) =
           min maxInterval (s.currentInterval * 105 / 100)
      rw [if_neg hl]
      rcases le_or_lt (s.currentInterval * 105 / 100) maxInterval with h | h
      · rw [if_neg (not_lt.mpr h), min_eq_right h]
      · rw [if_pos h, min_eq_left h.le]
    · intro hsw
      show (if logs.length > 0 then
              if logs.length ≥ 5 ∧ s.searchWindow > 15000000000 then
                s.searchWindow * 9 / 10
              else s.searchWindow
            else
              if s.searchWindow < 60000000000 then s.searchWindow * 11 / 10
              else s.searchWindow) = s.searchWindow * 11 / 10
      rw [if_neg hl, if_pos hsw]
  · intro o
    cases o with
    | fail => exact ⟨hmin, hmax⟩
    | rateLimited =>
        show minInterval ≤ (if max (2 * baseInterval) s.currentInterval > maxInterval
              then maxInterval else max (2 * baseInterval) s.currentInterval) ∧
             (if max (2 * baseInterval) s.currentInterval > maxInterval
              then maxInterval else max (2 * baseInterval) s.currentInterval) ≤
               maxInterval
        simp only [minInterval, maxInterval, baseInterval] at *
        split_ifs <;> omega
    | ok l2 t2 =>
        show minInterval ≤ (if l2.length > 0 then
               if s.consecutiveSuccesses + 1 ≥ 5 then
                 (if s.currentInterval * 85 / 100 < minInterval then minInterval
                  else s.currentInterval * 85 / 100)
               else s.currentInterval
             else
               if s.currentInterval * 105 / 100 > maxInterval then maxInterval
               else s.currentInterval * 105 / 100) ∧
             (if l2.length > 0 then
               if s.consecutiveSuccesses + 1 ≥ 5 then
                 (if s.currentInterval * 85 / 100 < minInterval then minInterval
                  else s.currentInterval * 85 / 100)
               else s.currentInterval
             else
               if s.currentInterval * 105 / 100 > maxInterval then maxInterval
               else s.currentInterval * 105 / 100) ≤ maxInterval
        simp only [minInterval, maxInterval, baseInterval] at *
        split_ifs <;> omega

/-- Witness for claim C5: from the initial state (3s interval inside the
2s..30s band), a successful empty fetch resets retryCount and a
rate-limited iteration keeps the interval at or above minInterval. -/
theorem tailStep_success_spec_witness :
    (tailStep initPollState (FetchOutcome.ok [] 0) 50000000000).retryCount = 0 ∧
    minInterval ≤ (tailStep initPollState FetchOutcome.rateLimited
        50000000000).currentInterval :=
  ⟨(tailStep_success_spec initPollState [] 0 50000000000 (by decide) (by decide)).1,
   ((tailStep_success_spec initPollState [] 0 50000000000 (by decide)
      (by decide)).2.2.2.2.2.2.2 FetchOutcome.rateLimited).1⟩

/-- The capped exponential base lies in [2, 30] for every retry count of
at least 1. -/
theorem backoffBase_bounds (n : Nat) (h : 1 ≤ n) :
    2 ≤ backoffBase n ∧ backoffBase n ≤ 30 := by
  unfold backoffBase
  split_ifs with h30
  · norm_num
  · constructor
    · calc (2 : ℚ) = 2 ^ 1 := by norm_num
        _ ≤ 2 ^ n := by
          apply pow_le_pow_right₀ (by norm_num) h
    · exact not_lt.mp h30

/-- The capped exponential base is min(2^n, 30). -/
theorem backoffBase_eq_min (n : Nat) :
    backoffBase n = min ((2 : ℚ) ^ n) 30 := by
  unfold backoffBase
  split_ifs with h30
  · rw [min_eq_right h30.le]
  · rw [min_eq_left (not_lt.mp h30)]

/-- For every retry count of at least 1 and every jitter draw, the
computed wait stays in [1s, 30s], below 1.1 times the capped base, and
above 0.9 times the capped base minus the one whole second the final
truncation can discard. -/
theorem cb_bounds (n : Nat) (r : ℚ) (hn : 1 ≤ n) (hr0 : 0 ≤ r) (hr1 : r < 1) :
    1000000000 ≤ CalculateBackoff n r ∧
    CalculateBackoff n r ≤ 30000000000 ∧
    (CalculateBackoff n r : ℚ) ≤ (11 / 10) * min ((2 : ℚ) ^ n) 30 * 1000000000 ∧
    ((9 / 10) * min ((2 : ℚ) ^ n) 30 - 1) * 1000000000 < (CalculateBackoff n r : ℚ) := by
  obtain ⟨hb2, hb30⟩ := backoffBase_bounds n hn
  set b := backoffBase n with hbdef
  set x := b + b * (1 / 5) * (r - 1 / 2) with hxdef
  have hx_lo : (9 / 10) * b ≤ x := by
    rw [hxdef]
    nlinarith [mul_nonneg (by linarith : (0:ℚ) ≤ b) hr0]
  have hx_hi : x < (11 / 10) * b := by
    rw [hxdef]
    nlinarith [mul_pos (by linarith : (0:ℚ) < b) (by linarith : (0:ℚ) < 1 - r)]
  have hxg1 : ¬ x < 1 := by
    push_neg
    calc (1 : ℚ) ≤ (9 / 10) * 2 := by norm_num
      _ ≤ (9 / 10) * b := by linarith
      _ ≤ x := hx_lo
  have hcl : clampLow x = x := by rw [clampLow, if_neg hxg1]
  set y := clampHigh x with hydef
  have hcb : CalculateBackoff n r = ⌊y⌋ * 1000000000 := by
    simp only [CalculateBackoff, ← hbdef, ← hxdef, hcl, ← hydef]
  clear_value b x y
  have hy30 : y ≤ 30 := by
    rw [hydef, clampHigh]
    split_ifs with h
    · norm_num
    · exact not_lt.mp h
  have hy_lo : (9 / 10) * b ≤ y := by
    rw [hydef, clampHigh]
    split_ifs with h
    · linarith
    · exact hx_lo
  have hy_hi : y < (11 / 10) * b := by
    rw [hydef, clampHigh]
    split_ifs with h
    · linarith
    · exact hx_hi
  have hy1 : (1 : ℚ) ≤ y := by
    rw [hydef, clampHigh]
    split_ifs with h
    · norm_num
    · linarith
  have hf1 : (1 : ℤ) ≤ ⌊y⌋ := Int.le_floor.mpr (by exact_mod_cast hy1)
  have hf30 : ⌊y⌋ ≤ 30 := by
    have h2 : (⌊y⌋ : ℚ) ≤ 30 := le_trans (Int.floor_le y) hy30
    exact_mod_cast h2
  refine ⟨?_, ?_, ?_, ?_⟩
  · rw [hcb]; nlinarith
  · rw [hcb]; nlinarith
  · rw [hcb, ← backoffBase_eq_min, ← hbdef]
    push_cast
    have hfl : (⌊y⌋ : ℚ) ≤ y := Int.floor_le y
    nlinarith
  · rw [hcb, ← backoffBase_eq_min, ← hbdef]
    push_cast
    have hfl : y - 1 < (⌊y⌋ : ℚ) := Int.sub_one_lt_floor y
    nlinarith

/-- At retry count 0 the clamps and truncation pin the wait to exactly
one second for every jitter draw in [0, 1). -/
theorem cb_zero (r : ℚ) (hr0 : 0 ≤ r) (hr1 : r < 1) :
    CalculateBackoff 0 r = 1000000000 := by
  have hb : backoffBase 0 = 1 := by norm_num [backoffBase]
  have hx : backoffBase 0 + backoffBase 0 * (1 / 5) * (r - 1 / 2) =
      1 + (1 / 5) * (r - 1 / 2) := by rw [hb]; ring
  set z := clampLow (1 + (1 / 5) * (r - 1 / 2)) with hzdef
  have hz1 : (1 : ℚ) ≤ z := by
    rw [hzdef, clampLow]
    split_ifs with h
    · norm_num
    · linarith [not_lt.mp h]
  have hz2 : z < 2 := by
    rw [hzdef, clampLow]
    split_ifs with h
    · norm_num
    · nlinarith [hr1, hr0]
  have hch : clampHigh z = z := by
    rw [clampHigh, if_neg]
    push_neg
    linarith
  have hcb : CalculateBackoff 0 r = ⌊z⌋ * 1000000000 := by
    simp only [CalculateBackoff]
    rw [hx, ← hzdef, hch]
  have hfl : ⌊z⌋ = 1 := by
    rw [Int.floor_eq_iff]
    constructor
    · exact_mod_cast hz1
    · push_cast
      linarith
  rw [hcb, hfl]
  norm_num

/-- Claim C6, amended: CalculateBackoff(0) is exactly the 1-second floor
for every jitter draw; for retry count n ≥ 1 the wait never exceeds 30s
nor drops below 1s, stays within the +10% jitter bound of min(30s, 2^n s),
and stays above the -10% bound widened by the one whole second that the
final time.Duration truncation can discard (the truncation makes the
plain ±10% band false, see the counterexample). -/
theorem CalculateBackoff_spec :
    (∀ r : ℚ, 0 ≤ r → r < 1 → CalculateBackoff 0 r = 1000000000) ∧
    (∀ (n : Nat) (r : ℚ), 1 ≤ n → 0 ≤ r → r < 1 →
      1000000000 ≤ CalculateBackoff n r ∧
      CalculateBackoff n r ≤ 30000000000 ∧
      (CalculateBackoff n r : ℚ) ≤ (11 / 10) * min ((2 : ℚ) ^ n) 30 * 1000000000 ∧
      ((9 / 10) * min ((2 : ℚ) ^ n) 30 - 1) * 1000000000 < (CalculateBackoff n r : ℚ)) :=
  ⟨fun r h0 h1 => cb_zero r h0 h1, fun n r hn h0 h1 => cb_bounds n r hn h0 h1⟩

/-- Counterexample to claim C6 as stated: at retry count 1 with jitter
draw 0 the jittered value is 1.8s, but time.Duration truncation to whole
seconds returns exactly 1s, strictly below the claimed -10% bound
0.9 * min(30, 2^1) = 1.8s. -/
theorem CalculateBackoff_cex :
    CalculateBackoff 1 0 = 1000000000 ∧
    (CalculateBackoff 1 0 : ℚ) < (9 / 10) * min ((2 : ℚ) ^ 1) 30 * 1000000000 := by
  constructor
  · norm_num [CalculateBackoff, backoffBase, clampLow, clampHigh]
  · norm_num [CalculateBackoff, backoffBase, clampLow, clampHigh]

/-- Witness for claim C6 (amended) at concrete draws. -/
theorem CalculateBackoff_spec_witness :
    CalculateBackoff 0 (1 / 2) = 1000000000 ∧
    1000000000 ≤ CalculateBackoff 3 (1 / 2) :=
  ⟨CalculateBackoff_spec.1 (1 / 2) (by norm_num) (by norm_num),
   (CalculateBackoff_spec.2 3 (1 / 2) (by norm_num) (by norm_num) (by norm_num)).1⟩

/-- Pagination accumulates all pages in order: given any run of pages
whose cursors are non-empty until a final empty cursor, the loop returns
the accumulator followed by every page's entries concatenated in page
order, sleeping no backoff. -/
theorem fetchAllLogsV2_pages (body : List (List LogEntry × String))
    (lastLogs : List LogEntry) :
    ∀ (acc : List LogEntry) (sleeps : List Nat) (rc : Nat),
      (∀ p ∈ body, p.2 ≠ "") →
      fetchAllLogsV2 (pagesTrace (body ++ [(lastLogs, "")])) rc acc sleeps =
        Except.ok (acc ++ (body.map Prod.fst).join ++ lastLogs, sleeps) := by
  induction body with
  | nil =>
      intro acc sleeps rc _
      simp [pagesTrace, fetchAllLogsV2]
  | cons p body ih =>
      intro acc sleeps rc h
      have hp : p.2 ≠ "" := h p (List.mem_cons_self p body)
      show (if p.2 = "" then Except.ok (acc ++ p.1, sleeps)
            else fetchAllLogsV2 (pagesTrace (body ++ [(lastLogs, "")])) 0
              (acc ++ p.1) sleeps) =
           Except.ok (acc ++ ((p :: body).map Prod.fst).join ++ lastLogs, sleeps)
      rw [if_neg hp,
        ih (acc ++ p.1) sleeps 0 (fun q hq => h q (List.mem_cons_of_mem p hq))]
      simp [List.append_assoc]

/-- Six consecutive rate-limited responses from a fresh retry counter
exhaust the five-retry ceiling and fail the whole batch. -/
theorem fetchAllLogsV2_rateLimit_fatal (j : Nat) (rest : List BatchFetchResult)
    (acc : List LogEntry) (sleeps : List Nat) :
    fetchAllLogsV2 (List.replicate 6 (BatchFetchResult.rateLimited j) ++ rest)
        0 acc sleeps =
      Except.error "maximum retry count reached due to rate limiting" := rfl

/-- Claim C8: the batch engine rejects any range whose end is not
strictly after its start; on a good trace it accumulates every page's
entries concatenated in page order and formats them only after the full
range is retrieved; each rate-limit backoff is base 2s times 2^attempt
plus less than 25% jitter; five retries are tolerated with exactly those
exponential sleeps, and a sixth consecutive rate limit fails the whole
batch. -/
theorem GetLogsFromTimestamp_spec :
    (∀ (fromNs toNs : Int) (fmt : LogEntry → String)
       (trace : List BatchFetchResult),
       toNs ≤ fromNs →
       GetLogsFromTimestamp fromNs toNs fmt trace =
         Except.error "end timestamp must be after start timestamp") ∧
    (∀ (fromNs toNs : Int) (fmt : LogEntry → String)
       (body : List (List LogEntry × String)) (lastLogs : List LogEntry),
       fromNs < toNs → (∀ p ∈ body, p.2 ≠ "") →
       GetLogsFromTimestamp fromNs toNs fmt
           (pagesTrace (body ++ [(lastLogs, "")])) =
         Except.ok (((body.map Prod.fst).join ++ lastLogs).map fmt)) ∧
    (∀ (fromNs toNs : Int) (fmt : LogEntry → String) (j : Nat)
       (rest : List BatchFetchResult),
       fromNs < toNs →
       GetLogsFromTimestamp fromNs toNs fmt
           (List.replicate 6 (BatchFetchResult.rateLimited j) ++ rest) =
         Except.error
           ("failed to fetch logs: " ++
             "maximum retry count reached due to rate limiting")) ∧
    (∀ rc j : Nat,
       batchBaseDelay * 2 ^ rc ≤ batchBackoffDelay rc j ∧
       batchBackoffDelay rc j <
         batchBaseDelay * 2 ^ rc + batchBaseDelay * 2 ^ rc / 4) ∧
    (∀ (j0 j1 j2 j3 j4 : Nat) (logs : List LogEntry),
       fetchAllLogsV2
           (List.map BatchFetchResult.rateLimited [j0, j1, j2, j3, j4] ++
             [BatchFetchResult.ok logs ""]) 0 [] [] =
         Except.ok (logs,
           [batchBackoffDelay 0 j0, batchBackoffDelay 1 j1, batchBackoffDelay 2 j2,
            batchBackoffDelay 3 j3, batchBackoffDelay 4 j4])) := by
  refine ⟨?_, ?_, ?_, ?_, ?_⟩
  · intro fromNs toNs fmt trace h
    simp only [GetLogsFromTimestamp]
    rw [if_pos h]
  · intro fromNs toNs fmt body lastLogs h hc
    simp only [GetLogsFromTimestamp]
    rw [if_neg (not_le.mpr h), fetchAllLogsV2_pages body lastLogs [] [] 0 hc]
    simp
  · intro fromNs toNs fmt j rest h
    simp only [GetLogsFromTimestamp]
    rw [if_neg (not_le.mpr h), fetchAllLogsV2_rateLimit_fatal]
  · intro rc j
    have hpos : 0 < batchBaseDelay * 2 ^ rc / 4 := by
      apply Nat.div_pos
      · calc (4 : Nat) ≤ 2000000000 * 1 := by norm_num
          _ ≤ 2000000000 * 2 ^ rc := by
            exact Nat.mul_le_mul_left _ (Nat.one_le_two_pow)
          _ = batchBaseDelay * 2 ^ rc := by rw [batchBaseDelay]
      · norm_num
    constructor
    · exact Nat.le_add_right _ _
    · exact Nat.add_lt_add_left (Nat.mod_lt j hpos) _
  · intro j0 j1 j2 j3 j4 logs
    rfl

/-- Witness for claim C8: a degenerate range is rejected, and a one-page
trace with an empty cursor yields that page's entries formatted. -/
theorem GetLogsFromTimestamp_spec_witness :
    GetLogsFromTimestamp 0 0 (fun e => e.message) [] =
      Except.error "end timestamp must be after start timestamp" ∧
    GetLogsFromTimestamp 0 1000000000 (fun e => e.message)
        (pagesTrace [([], "")]) = Except.ok [] ∧
    batchBaseDelay * 2 ^ 1 ≤ batchBackoffDelay 1 7 :=
  ⟨GetLogsFromTimestamp_spec.1 0 0 (fun e => e.message) [] (by norm_num),
   by
     have h := GetLogsFromTimestamp_spec.2.1 0 1000000000 (fun e => e.message)
       [] [] (by norm_num) (by simp)
     simpa using h,
   (GetLogsFromTimestamp_spec.2.2.2.1 1 7).1⟩

/-- Left trim leaves no leading whitespace. -/
theorem headIsSpace_trimLeft (l : List Char) :
    headIsSpace (trimLeftChars l) = false := by
  induction l with
  | nil => rfl
  | cons c rest ih =>
      simp only [trimLeftChars]
      split_ifs with h
      · exact ih
      · simp only [headIsSpace]
        simp [isSpaceChar] at h
        exact beq_eq_false_iff_ne.mpr h.1.1.1

/-- Popping the head of a list of two or more keeps the last element. -/
theorem lastIsSpace_cons_ne (c : Char) (l : List Char) (h : l ≠ []) :
    lastIsSpace (c :: l) = lastIsSpace l := by
  cases l with
  | nil => exact absurd rfl h
  | cons d rest => rfl

/-- Right trim leaves no trailing whitespace. -/
theorem lastIsSpace_trimRight (l : List Char) :
    lastIsSpace (trimRightChars l) = false := by
  induction l with
  | nil => rfl
  | cons c rest ih =>
      simp only [trimRightChars]
      split_ifs with h
      · rfl
      · by_cases hr : trimRightChars rest = []
        · rw [hr]
          have hc : ¬ (isSpaceChar c = true) := fun hspace => h ⟨hr, hspace⟩
          simp only [lastIsSpace]
          simp [isSpaceChar] at hc
          exact beq_eq_false_iff_ne.mpr hc.1.1.1
        · rw [lastIsSpace_cons_ne c _ hr]
          exact ih

/-- Right trim does not create a leading space. -/
theorem headIsSpace_trimRight (l : List Char) (h : headIsSpace l = false) :
    headIsSpace (trimRightChars l) = false := by
  cases l with
  | nil => rfl
  | cons c rest =>
      simp only [trimRightChars]
      split_ifs with hcond
      · rfl
      · exact h

/-- TrimSpace output never starts with a space. -/
theorem headIsSpace_trimSpace (l : List Char) :
    headIsSpace (trimSpaceChars l) = false :=
  headIsSpace_trimRight _ (headIsSpace_trimLeft l)

/-- TrimSpace output never ends with a space. -/
theorem lastIsSpace_trimSpace (l : List Char) :
    lastIsSpace (trimSpaceChars l) = false :=
  lastIsSpace_trimRight _

/-- The head of an append is the head of the non-empty left part. -/
theorem headIsSpace_append (a b : List Char) (h : a ≠ []) :
    headIsSpace (a ++ b) = headIsSpace a := by
  cases a with
  | nil => exact absurd rfl h
  | cons c rest => rfl

/-- The last of an append is the last of the non-empty right part. -/
theorem lastIsSpace_append (a b : List Char) (h : b ≠ []) :
    lastIsSpace (a ++ b) = lastIsSpace b := by
  induction a with
  | nil => rfl
  | cons c rest ih =>
      have hne : rest ++ b ≠ [] := fun hh => h (List.append_eq_nil.mp hh).2
      rw [List.cons_append, lastIsSpace_cons_ne c _ hne, ih]

/-- Gluing two double-space-free parts stays double-space-free when the
boundary does not put two spaces side by side. -/
theorem noDoubleSpace_append (a b : List Char) :
    noDoubleSpace a = true → noDoubleSpace b = true →
    (lastIsSpace a = false ∨ headIsSpace b = false) →
    noDoubleSpace (a ++ b) = true := by
  induction a with
  | nil => intro _ hb _; exact hb
  | cons c rest ih =>
      intro ha hb hbound
      cases rest with
      | nil =>
          cases b with
          | nil => rfl
          | cons d bs =>
              simp only [List.cons_append, List.nil_append, noDoubleSpace]
              rcases hbound with hl | hh
              · simp only [lastIsSpace] at hl
                simp [hl, hb]
              · simp only [headIsSpace] at hh
                simp [hh, hb]
      | cons c2 rest2 =>
          simp only [List.cons_append, noDoubleSpace] at ha ⊢
          rw [Bool.and_eq_true] at ha
          have hb2 : lastIsSpace (c2 :: rest2) = false ∨ headIsSpace b = false := by
            rcases hbound with hl | hh
            · exact Or.inl hl
            · exact Or.inr hh
          rw [Bool.and_eq_true]
          exact ⟨ha.1, ih ha.2 hb hb2⟩

/-- A space-free string does not start with a space. -/
theorem spaceFree_head (l : List Char) (h : spaceFree l = true) :
    headIsSpace l = false := by
  cases l with
  | nil => rfl
  | cons c rest => simp_all [spaceFree, headIsSpace]

/-- A space-free string does not end with a space. -/
theorem spaceFree_last (l : List Char) (h : spaceFree l = true) :
    lastIsSpace l = false := by
  induction l with
  | nil => rfl
  | cons c rest ih =>
      cases rest with
      | nil => simp_all [spaceFree, lastIsSpace]
      | cons d rest2 =>
          rw [lastIsSpace_cons_ne c _ (by simp)]
          apply ih
          simp_all [spaceFree]

/-- A space-free string has no double space. -/
theorem spaceFree_noDouble (l : List Char) (h : spaceFree l = true) :
    noDoubleSpace l = true := by
  induction l with
  | nil => rfl
  | cons c rest ih =>
      cases rest with
      | nil => rfl
      | cons d rest2 =>
          simp only [noDoubleSpace, Bool.and_eq_true]
          constructor
          · simp_all [spaceFree]
          · apply ih
            simp_all [spaceFree]

/-- Joining non-empty pieces that neither start nor end with a space,
with a double-space-free separator, yields a non-empty result that
neither starts nor ends with a space and has no double space. -/
theorem joinWith_clean (sep : List Char) (hsep : noDoubleSpace sep = true) :
    ∀ pieces : List (List Char),
      (∀ p ∈ pieces, p ≠ [] ∧ headIsSpace p = false ∧ lastIsSpace p = false ∧
        noDoubleSpace p = true) →
      noDoubleSpace (joinWith sep pieces) = true ∧
      (pieces ≠ [] → joinWith sep pieces ≠ [] ∧
        headIsSpace (joinWith sep pieces) = false ∧
        lastIsSpace (joinWith sep pieces) = false) := by
  intro pieces
  induction pieces with
  | nil => intro _; exact ⟨rfl, fun h => absurd rfl h⟩
  | cons x ys ih =>
      intro h
      obtain ⟨hxne, hxh, hxl, hxd⟩ := h x (List.mem_cons_self x ys)
      cases ys with
      | nil => exact ⟨hxd, fun _ => ⟨hxne, hxh, hxl⟩⟩
      | cons y rest =>
          obtain ⟨htd, htne⟩ := ih (fun q hq => h q (List.mem_cons_of_mem x hq))
          obtain ⟨hjne, hjh, hjl⟩ := htne (by simp)
          constructor
          · show noDoubleSpace ((x ++ sep) ++ joinWith sep (y :: rest)) = true
            rw [List.append_assoc]
            exact noDoubleSpace_append x (sep ++ joinWith sep (y :: rest)) hxd
              (noDoubleSpace_append sep (joinWith sep (y :: rest)) hsep htd
                (Or.inr hjh)) (Or.inl hxl)
          · intro _
            refine ⟨?_, ?_, ?_⟩
            · show (x ++ sep) ++ joinWith sep (y :: rest) ≠ []
              cases x with
              | nil => exact absurd rfl hxne
              | cons cc xx => simp
            · show headIsSpace ((x ++ sep) ++ joinWith sep (y :: rest)) = false
              rw [List.append_assoc, headIsSpace_append _ _ hxne]
              exact hxh
            · show lastIsSpace ((x ++ sep) ++ joinWith sep (y :: rest)) = false
              rw [lastIsSpace_append _ _ hjne]
              exact hjl

/-- Every surviving tag condition is a non-empty trimmed segment, hence
neither starts nor ends with a space. -/
theorem tagConditions_clean (tags : List Char) :
    ∀ p ∈ tagConditions tags,
      p ≠ [] ∧ headIsSpace p = false ∧ lastIsSpace p = false := by
  intro p hp
  simp only [tagConditions] at hp
  split_ifs at hp with h
  · rw [List.mem_filter] at hp
    obtain ⟨hmem, hpe⟩ := hp
    obtain ⟨q, _, hq⟩ := List.mem_map.mp hmem
    refine ⟨by simpa using hpe, ?_, ?_⟩
    · rw [← hq]; exact headIsSpace_trimSpace q
    · rw [← hq]; exact lastIsSpace_trimSpace q
  · simp at hp

/-- A status clause over a space-free level is clean. -/
theorem statusClause_clean (l : List Char) (h : spaceFree l = true) :
    statusClause l ≠ [] ∧ headIsSpace (statusClause l) = false ∧
    lastIsSpace (statusClause l) = false ∧
    noDoubleSpace (statusClause l) = true := by
  refine ⟨by simp [statusClause], rfl, ?_, ?_⟩
  · cases l with
    | nil => decide
    | cons c rest =>
        rw [statusClause, lastIsSpace_append _ _ (by simp)]
        exact spaceFree_last _ h
  · exact noDoubleSpace_append _ l (by decide) (spaceFree_noDouble l h)
      (Or.inl (by decide))

/-- Every level condition built from space-free levels is clean, for any
shape of the level list and fallback. -/
theorem levelConditions_clean (levels : List (List Char)) (logLevel : List Char)
    (hl : ∀ l ∈ levels, spaceFree l = true) (hll : spaceFree logLevel = true) :
    ∀ p ∈ levelConditions levels logLevel,
      p ≠ [] ∧ headIsSpace p = false ∧ lastIsSpace p = false ∧
      noDoubleSpace p = true := by
  intro p hp
  match levels, hp with
  | [], hp =>
      simp only [levelConditions] at hp
      split_ifs at hp with h
      · simp at hp
        rw [hp]
        exact statusClause_clean logLevel hll
      · simp at hp
  | [l], hp =>
      simp only [levelConditions] at hp
      simp at hp
      rw [hp]
      exact statusClause_clean l (hl l (by simp))
  | l1 :: l2 :: rest, hp =>
      simp only [levelConditions] at hp
      simp at hp
      have hpieces : ∀ q ∈ (l1 :: l2 :: rest).map statusClause,
          q ≠ [] ∧ headIsSpace q = false ∧ lastIsSpace q = false ∧
          noDoubleSpace q = true := by
        intro q hq
        obtain ⟨lv, hlv, hq⟩ := List.mem_map.mp hq
        rw [← hq]
        exact statusClause_clean lv (hl lv hlv)
      obtain ⟨hjd, hjne⟩ := joinWith_clean (" OR ".toList) (by decide) _ hpieces
      obtain ⟨hne, hh, hl2⟩ := hjne (by simp)
      rw [hp]
      refine ⟨by simp, rfl, ?_, ?_⟩
      · rw [lastIsSpace_cons_ne _ _ (by simp), lastIsSpace_append _ _ (by simp)]
        decide
      · have h1 : noDoubleSpace
            (joinWith (" OR ".toList) ((l1 :: l2 :: rest).map statusClause) ++
              [')']) = true :=
          noDoubleSpace_append _ _ hjd (by decide) (Or.inr (by decide))
        have h2 := noDoubleSpace_append ['(']
          (joinWith (" OR ".toList) ((l1 :: l2 :: rest).map statusClause) ++ [')'])
          (by decide) h1 (Or.inl (by decide))
        simpa using h2

/-- Claim C7, amended: the query builder is a pure function; an empty tag
filter with an empty level set yields the empty string; one level yields
a single status clause and two or more a parenthesized OR-group; the
worked example holds exactly; and the output has no leading space, no
trailing space, and no double space provided each surviving trimmed tag
segment is itself free of consecutive spaces and the levels are
space-free (as the validated level names are) — trimming only strips the
ends of each comma segment, so a tag like "a  b" carries its interior
double space into the output, against the claim's unconditional
no-double-space statement. -/
theorem buildQueryV2_spec :
    (buildQueryV2 [] [] [] = []) ∧
    (∀ l : List Char, buildQueryV2 [] [l] [] = statusClause l) ∧
    (∀ (l1 l2 : List Char) (ls : List (List Char)),
       buildQueryV2 [] (l1 :: l2 :: ls) [] =
         ['('] ++ joinWith (" OR ".toList) ((l1 :: l2 :: ls).map statusClause) ++
           [')']) ∧
    (buildQueryV2 "service:web, env:prod ".toList
        ["error".toList, "warn".toList] [] =
       "service:web env:prod (status:error OR status:warn)".toList) ∧
    (∀ (tags : List Char) (levels : List (List Char)) (logLevel : List Char),
       (∀ p ∈ tagConditions tags, noDoubleSpace p = true) →
       (∀ l ∈ levels, spaceFree l = true) →
       spaceFree logLevel = true →
       headIsSpace (buildQueryV2 tags levels logLevel) = false ∧
       lastIsSpace (buildQueryV2 tags levels logLevel) = false ∧
       noDoubleSpace (buildQueryV2 tags levels logLevel) = true) := by
  refine ⟨rfl, fun l => rfl, fun l1 l2 ls => rfl, by decide, ?_⟩
  intro tags levels logLevel htags hlvl hll
  have htagsclean : ∀ p ∈ tagConditions tags,
      p ≠ [] ∧ headIsSpace p = false ∧ lastIsSpace p = false ∧
      noDoubleSpace p = true := by
    intro p hp
    obtain ⟨h1, h2, h3⟩ := tagConditions_clean tags p hp
    exact ⟨h1, h2, h3, htags p hp⟩
  have hall : ∀ p ∈ tagConditions tags ++ levelConditions levels logLevel,
      p ≠ [] ∧ headIsSpace p = false ∧ lastIsSpace p = false ∧
      noDoubleSpace p = true := by
    intro p hp
    rcases List.mem_append.mp hp with h | h
    · exact htagsclean p h
    · exact levelConditions_clean levels logLevel hlvl hll p h
  obtain ⟨hjd, hjne⟩ := joinWith_clean [' '] (by decide) _ hall
  by_cases hemp : tagConditions tags ++ levelConditions levels logLevel = []
  · have hb : buildQueryV2 tags levels logLevel = [] := by
      show joinWith [' ']
        (tagConditions tags ++ levelConditions levels logLevel) = []
      rw [hemp]
      rfl
    rw [hb]
    exact ⟨rfl, rfl, rfl⟩
  · obtain ⟨hne, hh, hl⟩ := hjne hemp
    exact ⟨hh, hl, hjd⟩

/-- Counterexample to claim C7 as stated: the tag filter "a  b" (a single
comma segment whose interior holds two adjacent spaces) survives trimming
verbatim, so the builder's output contains a double space. -/
theorem buildQueryV2_cex :
    noDoubleSpace (buildQueryV2 "a  b".toList [] []) = false := by decide

/-- Witness for claim C7 (amended) at the worked example's inputs. -/
theorem buildQueryV2_spec_witness :
    buildQueryV2 [] ["error".toList] [] = statusClause "error".toList ∧
    headIsSpace (buildQueryV2 "service:web, env:prod ".toList
        ["error".toList, "warn".toList] []) = false :=
  ⟨buildQueryV2_spec.2.1 "error".toList,
   (buildQueryV2_spec.2.2.2.2 "service:web, env:prod ".toList
      ["error".toList, "warn".toList] [] (by decide) (by decide) (by decide)).1⟩
